import Mathlib

/-!
Shallow embedding of the personal-finance calculation core:
the financial-analysis module (categorizer, metrics engine, spending
aggregator, insight generator) and the investment-planning module
(allocation engine, portfolio evaluator, goal projection).

Modelling conventions:
* JavaScript numbers are embedded as exact rationals (ℚ); the verified
  claims are stated in exact arithmetic.
* Calendar dates follow the JavaScript `Date(year, monthIndex, day)`
  constructor: the month index is arbitrary and is normalized into
  [0, 11] with year carry, and day overflow rolls into the following
  months (leap years included).  Time-of-day and timezone are not
  modelled: every date is a calendar day.
* The ambient clock read (`new Date()`) inside the metrics and spending
  functions is made explicit as a `now` argument of the embedding: the
  value the clock returned at call time.
-/

namespace FinanceCore

/-- A calendar date in the JavaScript convention: `month` is the 0-based
month index; a normalized date has `month ≤ 11` and a valid `day`. -/
structure DateT where
  year : Int
  month : Nat
  day : Nat
deriving DecidableEq, Repr

def isLeapYear (y : Int) : Bool :=
  (y % 4 == 0 && y % 100 != 0) || y % 400 == 0

def daysInMonth (y : Int) (m : Nat) : Nat :=
  match m with
  | 1 => if isLeapYear y then 29 else 28
  | 3 | 5 | 8 | 10 => 30
  | _ => 31

theorem daysInMonth_pos (y : Int) (m : Nat) : 0 < daysInMonth y m := by
  unfold daysInMonth
  split <;> first | omega | (split <;> omega)

/-- Day-overflow normalization of the JS `Date` constructor: while the day
exceeds the current month's length, borrow a month.  Each borrow removes at
least 28 days, so `d` units of fuel always suffice; fuel keeps the
recursion structural (kernel-reducible). -/
def fixDayFuel : Nat → Int → Nat → Nat → DateT
  | 0, y, m, d => ⟨y, m, d⟩
  | fuel + 1, y, m, d =>
    if daysInMonth y m < d then
      if m == 11 then fixDayFuel fuel (y + 1) 0 (d - daysInMonth y m)
      else fixDayFuel fuel y (m + 1) (d - daysInMonth y m)
    else ⟨y, m, d⟩

/-- The JS `new Date(y, m, d)` constructor (at midnight): normalizes the
month index into [0, 11] with year carry, then resolves day overflow. -/
def mkDate (y : Int) (m : Int) (d : Nat) : DateT :=
  fixDayFuel d (y + m / 12) (m % 12).toNat d

/-- `new Date(now.getFullYear(), now.getMonth() - k, now.getDate())`. -/
def monthsAgo (k : Nat) (now : DateT) : DateT :=
  mkDate now.year ((now.month : Int) - (k : Int)) now.day

/-- Chronological comparison of normalized calendar dates (the source
compares millisecond timestamps; for midnight dates this is the
lexicographic order on year, month, day). -/
def dateLe (a b : DateT) : Bool :=
  a.year < b.year ||
    (a.year == b.year &&
      (a.month < b.month || (a.month == b.month && a.day ≤ b.day)))

/-! ### Categorizer -/

/-- The ordered category/keyword table `TRANSACTION_CATEGORIES`
(object-literal key order is the declared order). -/
def TRANSACTION_CATEGORIES : List (String × List String) :=
  [ ("Housing", ["rent", "mortgage", "utilities", "insurance", "property tax", "maintenance"]),
    ("Transportation", ["gas", "car payment", "insurance", "maintenance", "uber", "lyft", "taxi", "public transport"]),
    ("Food", ["grocery", "restaurant", "fast food", "coffee", "dining", "takeout"]),
    ("Healthcare", ["doctor", "pharmacy", "hospital", "dental", "vision", "medical"]),
    ("Entertainment", ["movie", "streaming", "games", "concert", "sports", "hobby"]),
    ("Shopping", ["clothing", "electronics", "home goods", "personal care", "gifts"]),
    ("Education", ["tuition", "books", "courses", "training", "certification"]),
    ("Savings", ["savings account", "investment", "401k", "ira", "emergency fund"]),
    ("Debt", ["credit card", "loan payment", "student loan", "personal loan"]),
    ("Income", ["salary", "bonus", "freelance", "investment income", "rental income"]),
    ("Other", []) ]

/-- JS `String.prototype.toLowerCase`, per character (the descriptions and
keywords at play are ASCII, where JS and per-`Char` lowering agree). -/
def strToLower (s : String) : String := String.mk (s.data.map Char.toLower)

/-- JS `String.prototype.includes`: contiguous-substring test. -/
def strIncludes (s pat : String) : Bool :=
  decide (pat.toList <:+: s.toList)

/-- One category row matches when some keyword occurs in the (already
lower-cased) description. -/
def catMatches (lowerDesc : String) (p : String × List String) : Bool :=
  p.2.any (fun keyword => strIncludes lowerDesc keyword)

/-- `categorizeTransaction`: lower-case the description, scan the category
table in order, return the first match, else "Other". -/
def categorizeTransaction (description : String) : String :=
  let lowerDesc := strToLower description
  match TRANSACTION_CATEGORIES.find? (fun p => catMatches lowerDesc p) with
  | some p => p.1
  | none => "Other"

/-! ### Transactions and the metrics engine -/

inductive TType where
  | income
  | expense
  | transfer
deriving DecidableEq, Repr

/-- A transaction snapshot as read by the calculation core.  The metrics
function's parameter type omits `description` but its body reads
`t.description || ""`; the database schema declares `description` as
non-null text, so it is modelled as a `String` field (for a string value,
`x || ""` is `x` up to the empty string, which behaves identically). -/
structure Transaction where
  amount : ℚ
  description : String
  transaction_type : TType
  transaction_date : DateT
deriving DecidableEq, Repr

structure FinancialMetrics where
  totalIncome : ℚ
  totalExpenses : ℚ
  netIncome : ℚ
  savingsRate : ℚ
  debtToIncomeRatio : ℚ
  emergencyFundMonths : ℚ
  monthlyBudgetVariance : ℚ
deriving DecidableEq, Repr

/-- `calculateFinancialMetrics`.  The source opens with
`const now = new Date()`; that ambient clock read is the explicit `now`
argument here (see the module header). -/
def calculateFinancialMetrics (transactions : List Transaction)
    (emergencyFundBalance : ℚ) (now : DateT) : FinancialMetrics :=
  let threeMonthsAgo := monthsAgo 3 now
  let recentTransactions :=
    transactions.filter (fun t => dateLe threeMonthsAgo t.transaction_date)
  let totalIncome : ℚ :=
    (recentTransactions.filter (fun t => t.transaction_type == TType.income)).foldl
      (fun sum t => sum + |t.amount|) 0
  let totalExpenses : ℚ :=
    (recentTransactions.filter (fun t => t.transaction_type == TType.expense)).foldl
      (fun sum t => sum + |t.amount|) 0
  let netIncome := totalIncome - totalExpenses
  let savingsRate := if 0 < totalIncome then netIncome / totalIncome * 100 else 0
  let monthlyExpenses := totalExpenses / 3
  let emergencyFundMonths :=
    if 0 < monthlyExpenses then emergencyFundBalance / monthlyExpenses else 0
  let debtPayments : ℚ :=
    ((recentTransactions.filter (fun t => t.transaction_type == TType.expense)).filter
        (fun t => categorizeTransaction t.description == "Debt")).foldl
      (fun sum t => sum + |t.amount|) 0
  let monthlyIncome := totalIncome / 3
  let debtToIncomeRatio :=
    if 0 < monthlyIncome then debtPayments / 3 / monthlyIncome * 100 else 0
  { totalIncome := totalIncome
    totalExpenses := totalExpenses
    netIncome := netIncome
    savingsRate := savingsRate
    debtToIncomeRatio := debtToIncomeRatio
    emergencyFundMonths := emergencyFundMonths
    monthlyBudgetVariance := 0 }

/-! ### Spending aggregator -/

structure CategorySpend where
  amount : ℚ
  percentage : ℚ
  transactions : Nat
deriving DecidableEq, Repr

/-- One `forEach` step of `analyzeSpendingByCategory`: create the bucket on
first sight (JS object insertion order = first-seen order), then add the
amount and bump the count. -/
def addToCategory (m : List (String × CategorySpend)) (cat : String) (amt : ℚ) :
    List (String × CategorySpend) :=
  match m with
  | [] => [(cat, ⟨amt, 0, 1⟩)]
  | (c, s) :: rest =>
    if c = cat then (c, ⟨s.amount + amt, s.percentage, s.transactions + 1⟩) :: rest
    else (c, s) :: addToCategory rest cat amt

/-- `analyzeSpendingByCategory`; the ambient `new Date()` read is the
explicit `now` argument.  The returned object is modelled as an
association list in insertion order. -/
def analyzeSpendingByCategory (transactions : List Transaction) (now : DateT) :
    List (String × CategorySpend) :=
  let oneMonthAgo := monthsAgo 1 now
  let expenseTransactions :=
    transactions.filter
      (fun t => t.transaction_type == TType.expense && dateLe oneMonthAgo t.transaction_date)
  let totalExpenses : ℚ := expenseTransactions.foldl (fun sum t => sum + |t.amount|) 0
  let categorySpending :=
    expenseTransactions.foldl
      (fun m t => addToCategory m (categorizeTransaction t.description) |t.amount|) []
  categorySpending.map (fun p =>
    (p.1, { p.2 with
            percentage := if 0 < totalExpenses then p.2.amount / totalExpenses * 100 else 0 }))

/-! ### Insight generator -/

inductive InsightType where
  | positive
  | warning
  | critical
deriving DecidableEq, Repr

inductive InsightPriority where
  | low
  | medium
  | high
deriving DecidableEq, Repr

/-- The comparator weights of the final sort: `{high: 3, medium: 2, low: 1}`. -/
def priorityWeight : InsightPriority → Nat
  | .high => 3
  | .medium => 2
  | .low => 1

/-- An advisory insight.  The `description` and `recommendation` fields of
the source are free-text presentation strings interpolating `toFixed(1)`
renderings of the metrics; they are elided here (decimal string formatting
is not load-bearing for any verified property), keeping the discriminating
fields: severity type, title and priority. -/
structure FinancialInsight where
  itype : InsightType
  title : String
  priority : InsightPriority
deriving DecidableEq, Repr

structure UserProfile where
  annual_income : ℚ
  risk_tolerance : String
  financial_goals : List String

/-- The insight list as pushed, in rule-evaluation order: savings rate,
emergency fund, debt-to-income, housing share, food share. -/
def rawInsights (metrics : FinancialMetrics)
    (spendingByCategory : List (String × CategorySpend)) : List FinancialInsight :=
  (if metrics.savingsRate < 10 then
      [⟨.critical, "Low Savings Rate", .high⟩]
    else if metrics.savingsRate < 20 then
      [⟨.warning, "Moderate Savings Rate", .medium⟩]
    else
      [⟨.positive, "Excellent Savings Rate", .low⟩]) ++
  (if metrics.emergencyFundMonths < 3 then
      [⟨.critical, "Insufficient Emergency Fund", .high⟩]
    else if metrics.emergencyFundMonths < 6 then
      [⟨.warning, "Emergency Fund Needs Growth", .medium⟩]
    else []) ++
  (if 40 < metrics.debtToIncomeRatio then
      [⟨.critical, "High Debt-to-Income Ratio", .high⟩]
    else if 20 < metrics.debtToIncomeRatio then
      [⟨.warning, "Moderate Debt Load", .medium⟩]
    else []) ++
  (match spendingByCategory.lookup "Housing" with
    | some s => if 30 < s.percentage then [⟨.warning, "High Housing Costs", .medium⟩] else []
    | none => []) ++
  (match spendingByCategory.lookup "Food" with
    | some s => if 15 < s.percentage then [⟨.warning, "High Food Spending", .low⟩] else []
    | none => [])

/-- Insert an insight in front of the first element of not-larger weight.
Used to embed the final `Array.prototype.sort` call: the comparator
`priorityOrder[b] - priorityOrder[a]` sorts by weight descending, and JS
sort is stable, so the result is the unique stable descending-weight
ordering, which this insertion realizes. -/
def insertInsight (x : FinancialInsight) : List FinancialInsight → List FinancialInsight
  | [] => [x]
  | y :: ys =>
    if priorityWeight y.priority ≤ priorityWeight x.priority then x :: y :: ys
    else y :: insertInsight x ys

def sortInsights (l : List FinancialInsight) : List FinancialInsight :=
  l.foldr insertInsight []

/-- `generateFinancialInsights`: evaluate the rules in order, then sort by
priority descending (stable).  The `userProfile` argument is accepted but
unused, as in the source. -/
def generateFinancialInsights (metrics : FinancialMetrics)
    (spendingByCategory : List (String × CategorySpend))
    (_userProfile : UserProfile) : List FinancialInsight :=
  sortInsights (rawInsights metrics spendingByCategory)

/-! ### Allocation engine -/

structure AssetAllocation where
  stocks : ℚ
  bonds : ℚ
  realEstate : ℚ
  commodities : ℚ
  cash : ℚ
deriving DecidableEq, Repr

/-- `calculateAgeBasedAllocation` (rule of 100/110/120).  The risk
tolerance is a raw string in the source, with a default branch for
unrecognized values. -/
def calculateAgeBasedAllocation (age : ℚ) (riskTolerance : String) : AssetAllocation :=
  let stockPercentage : ℚ :=
    if riskTolerance = "conservative" then max (100 - age) 20
    else if riskTolerance = "moderate" then max (110 - age) 30
    else if riskTolerance = "aggressive" then max (120 - age) 40
    else max (110 - age) 30
  let bondPercentage := min (100 - stockPercentage) 60
  let remainingPercentage := 100 - stockPercentage - bondPercentage
  { stocks := stockPercentage
    bonds := bondPercentage
    realEstate := min (remainingPercentage * 0.6) 15
    commodities := min (remainingPercentage * 0.3) 10
    cash := max (remainingPercentage * 0.1) 5 }

inductive RiskTolerance where
  | conservative
  | moderate
  | aggressive
deriving DecidableEq, Repr

def riskToleranceStr : RiskTolerance → String
  | .conservative => "conservative"
  | .moderate => "moderate"
  | .aggressive => "aggressive"

/-- `calculateGoalBasedAllocation`.  The risk tolerance is modelled by the
three-valued enum of the `InvestmentProfile` type (the only caller passes
a profile's tolerance; for any other string the source's multiplier lookup
is undefined and the result would be NaN-poisoned, which ℚ cannot
represent).  The `goalType` argument is accepted but unused, as in the
source. -/
def calculateGoalBasedAllocation (timeHorizon : ℚ) (riskTolerance : RiskTolerance)
    (_goalType : String) : AssetAllocation :=
  let base : AssetAllocation :=
    if timeHorizon < 3 then ⟨30, 50, 5, 5, 10⟩
    else if timeHorizon < 10 then ⟨50, 35, 8, 5, 2⟩
    else ⟨70, 20, 7, 2, 1⟩
  let riskMultiplier : ℚ :=
    match riskTolerance with
    | .conservative => 0.7
    | .moderate => 1.0
    | .aggressive => 1.3
  let stockAdjustment := (base.stocks - 50) * (riskMultiplier - 1)
  let stocks2 := max (min (base.stocks + stockAdjustment) 90) 10
  let bonds2 := max (min (base.bonds - stockAdjustment * 0.7) 80) 5
  let total := stocks2 + bonds2 + base.realEstate + base.commodities + base.cash
  { stocks := stocks2 / total * 100
    bonds := bonds2 / total * 100
    realEstate := base.realEstate / total * 100
    commodities := base.commodities / total * 100
    cash := base.cash / total * 100 }

structure InvestmentProfile where
  riskTolerance : RiskTolerance
  timeHorizon : ℚ
  investmentGoals : List String
  currentAge : ℚ
  retirementAge : ℚ
  availableToInvest : ℚ

/-- An investment recommendation.  The `description` and `reasoning`
presentation strings of the source are elided (free text interpolating the
numeric fields); the computed fields are kept. -/
structure InvestmentRecommendation where
  allocation : AssetAllocation
  expectedReturn : ℚ
  riskLevel : String
deriving DecidableEq, Repr

/-- JS `Math.round` on an exact rational: round half toward positive
infinity. -/
def roundQ (x : ℚ) : ℚ := (round x : ℤ)

/-- `profile.investmentGoals[0] || "general"`: the first goal, falling back
to "general" when the list is empty or its head is the empty string
(falsy). -/
def headOrGeneral : List String → String
  | [] => "general"
  | g :: _ => if g = "" then "general" else g

/-- The blend step of `generateInvestmentRecommendation`: 60% goal-based +
40% age-based, each component rounded to the nearest integer. -/
def blendAllocation (goalBased ageBased : AssetAllocation) : AssetAllocation :=
  { stocks := roundQ (goalBased.stocks * 0.6 + ageBased.stocks * 0.4)
    bonds := roundQ (goalBased.bonds * 0.6 + ageBased.bonds * 0.4)
    realEstate := roundQ (goalBased.realEstate * 0.6 + ageBased.realEstate * 0.4)
    commodities := roundQ (goalBased.commodities * 0.6 + ageBased.commodities * 0.4)
    cash := roundQ (goalBased.cash * 0.6 + ageBased.cash * 0.4) }

def generateInvestmentRecommendation (profile : InvestmentProfile) :
    InvestmentRecommendation :=
  let ageBasedAllocation :=
    calculateAgeBasedAllocation profile.currentAge (riskToleranceStr profile.riskTolerance)
  let goalBasedAllocation :=
    calculateGoalBasedAllocation profile.timeHorizon profile.riskTolerance
      (headOrGeneral profile.investmentGoals)
  let allocation := blendAllocation goalBasedAllocation ageBasedAllocation
  let expectedReturn :=
    (allocation.stocks * 0.1 + allocation.bonds * 0.04 + allocation.realEstate * 0.08 +
        allocation.commodities * 0.06 + allocation.cash * 0.02) / 100
  let riskLevel :=
    match profile.riskTolerance with
    | .aggressive => "High"
    | .moderate => "Medium"
    | .conservative => "Low"
  { allocation := allocation, expectedReturn := expectedReturn, riskLevel := riskLevel }

/-! ### Portfolio evaluator -/

structure Holding where
  symbol : String
  shares : ℚ
  purchase_price : ℚ
  current_price : ℚ
deriving DecidableEq, Repr

structure PortfolioPerformance where
  totalValue : ℚ
  totalGain : ℚ
  totalGainPercentage : ℚ
  dayChange : ℚ
  dayChangePercentage : ℚ
  diversificationScore : ℚ
deriving DecidableEq, Repr

/-- `calculatePortfolioPerformance`: the `forEach` accumulation of
(totalValue, totalCost, dayChange) is a left fold over a triple; the
previous-day price is synthesized as `current_price * 0.99`. -/
def calculatePortfolioPerformance (investments : List Holding) : PortfolioPerformance :=
  let acc :=
    investments.foldl
      (fun (acc : ℚ × ℚ × ℚ) inv =>
        let currentValue := inv.shares * inv.current_price
        let costBasis := inv.shares * inv.purchase_price
        let previousPrice := inv.current_price * 0.99
        (acc.1 + currentValue, acc.2.1 + costBasis,
          acc.2.2 + inv.shares * (inv.current_price - previousPrice)))
      (0, 0, 0)
  let totalValue := acc.1
  let totalCost := acc.2.1
  let dayChange := acc.2.2
  let totalGain := totalValue - totalCost
  let totalGainPercentage := if 0 < totalCost then totalGain / totalCost * 100 else 0
  let dayChangePercentage := if 0 < totalValue then dayChange / totalValue * 100 else 0
  let uniqueSymbols := (investments.map (fun inv => inv.symbol)).dedup.length
  let diversificationScore := min ((uniqueSymbols : ℚ) / 10 * 100) 100
  { totalValue := totalValue
    totalGain := totalGain
    totalGainPercentage := totalGainPercentage
    dayChange := dayChange
    dayChangePercentage := dayChangePercentage
    diversificationScore := diversificationScore }

/-- `calculateMonthlyContributionNeeded`.  `yearsToGoal` is a whole number
of years (the exponent of the monthly compounding); in ℚ the annuity
factor `(pow - 1) / monthlyReturn` is 0 exactly when the JS expression is
`NaN` (0/0), `0` or `-0`, so the `|| totalMonths` fallback is the
`if factor = 0` branch. -/
def calculateMonthlyContributionNeeded (currentAmount targetAmount : ℚ)
    (yearsToGoal : Nat) (expectedReturn : ℚ) : ℚ :=
  if yearsToGoal ≤ 0 then targetAmount - currentAmount
  else
    let monthlyReturn := expectedReturn / 12
    let totalMonths := yearsToGoal * 12
    let futureValueCurrent := currentAmount * (1 + monthlyReturn) ^ totalMonths
    let amountNeeded := targetAmount - futureValueCurrent
    if amountNeeded ≤ 0 then 0
    else
      let annuityFactor := ((1 + monthlyReturn) ^ totalMonths - 1) / monthlyReturn
      let denom := if annuityFactor = 0 then (totalMonths : ℚ) else annuityFactor
      max (amountNeeded / denom) 0

/-- `maxMonths = 50 * 12`: the 50-year monthly cap of the goal-projection
loop. -/
def maxMonths : Nat := 50 * 12

/-- The `while (amount < targetAmount && months < maxMonths)` loop of
`projectInvestmentGoal`, with explicit fuel to keep the recursion
structural; `maxMonths` units of fuel make the fuel bound unreachable
before the loop's own cap (proved below as fuel irrelevance). -/
def projectLoop (monthlyReturn monthlyContribution targetAmount : ℚ) :
    ℚ → Nat → Nat → ℚ × Nat
  | amount, months, 0 => (amount, months)
  | amount, months, fuel + 1 =>
    if amount < targetAmount ∧ months < maxMonths then
      projectLoop monthlyReturn monthlyContribution targetAmount
        (amount * (1 + monthlyReturn) + monthlyContribution) (months + 1) fuel
    else (amount, months)

structure GoalProjection where
  projectedAmount : ℚ
  yearsToTarget : ℚ
  onTrack : Bool
deriving DecidableEq, Repr

def projectInvestmentGoal (currentAmount monthlyContribution expectedReturn targetAmount : ℚ) :
    GoalProjection :=
  let monthlyReturn := expectedReturn / 12
  let res := projectLoop monthlyReturn monthlyContribution targetAmount currentAmount 0 maxMonths
  { projectedAmount := res.1
    yearsToTarget := (res.2 : ℚ) / 12
    onTrack := decide (res.2 < maxMonths) }

/-- Componentwise sum of an allocation (used to separate the age-based and
goal-based allocation images). -/
def allocSum (a : AssetAllocation) : ℚ :=
  a.stocks + a.bonds + a.realEstate + a.commodities + a.cash

/-! ## Theorems -/

/-! ### Generic list lemmas -/

theorem find?_eq_get_of_first {α : Type} (p : α → Bool) :
    ∀ (l : List α) (i : Nat) (h : i < l.length),
      p (l.get ⟨i, h⟩) = true →
      (∀ j (hj : j < l.length), j < i → p (l.get ⟨j, hj⟩) = false) →
      l.find? p = some (l.get ⟨i, h⟩) := by
  intro l
  induction l with
  | nil => intro i h; simp at h
  | cons a tl ih =>
    intro i h hp hprev
    cases i with
    | zero =>
      simp only [List.get] at hp ⊢
      simp [List.find?, hp]
    | succ i =>
      have ha : p a = false := hprev 0 (by simp) (by omega)
      simp only [List.get] at hp ⊢
      rw [List.find?_cons, ha]
      have h2 : i < tl.length := by simp only [List.length_cons] at h; omega
      exact ih i h2 hp
        (fun j hj hji =>
          hprev (j + 1) (by simp only [List.length_cons]; omega) (by omega))

/-! ### C1: the categorizer -/

/-- C1: `categorizeTransaction` is a pure, total, deterministic function:
every description maps to one of the 11 fixed category names; the empty
description maps to "Other"; when no category's keyword occurs in the
lower-cased description the result is "Other"; and the result is the
earliest-declared category one of whose keywords occurs in the lower-cased
description, so a keyword shared by two categories resolves to the
earlier-declared one. -/
theorem categorizeTransaction_first_match_spec (d : String) :
    categorizeTransaction d ∈ TRANSACTION_CATEGORIES.map Prod.fst ∧
    categorizeTransaction "" = "Other" ∧
    ((∀ p ∈ TRANSACTION_CATEGORIES, catMatches (strToLower d) p = false) →
      categorizeTransaction d = "Other") ∧
    ∀ i : Fin TRANSACTION_CATEGORIES.length,
      catMatches (strToLower d) (TRANSACTION_CATEGORIES.get i) = true →
      (∀ j : Fin TRANSACTION_CATEGORIES.length, (j : Nat) < (i : Nat) →
        catMatches (strToLower d) (TRANSACTION_CATEGORIES.get j) = false) →
      categorizeTransaction d = (TRANSACTION_CATEGORIES.get i).1 := by
  refine ⟨?_, by decide, ?_, ?_⟩
  · cases h : TRANSACTION_CATEGORIES.find? (fun p => catMatches (strToLower d) p) with
    | none =>
      simp only [categorizeTransaction, h]
      decide
    | some p =>
      have hp : p ∈ TRANSACTION_CATEGORIES := List.mem_of_find?_eq_some h
      simp only [categorizeTransaction, h]
      exact List.mem_map_of_mem Prod.fst hp
  · intro hnone
    have h : TRANSACTION_CATEGORIES.find? (fun p => catMatches (strToLower d) p) = none := by
      rw [List.find?_eq_none]
      intro p hp
      simp [hnone p hp]
    simp [categorizeTransaction, h]
  · intro i hi hprev
    have h := find?_eq_get_of_first (fun p => catMatches (strToLower d) p)
      TRANSACTION_CATEGORIES i.1 i.2 hi (fun j hj hji => hprev ⟨j, hj⟩ hji)
    simp only [categorizeTransaction, h]

/-- Witness for C1: "gas station" matches the Transportation row (index 1)
via the keyword "gas", and no earlier row matches. -/
theorem categorizeTransaction_first_match_spec_witness :
    categorizeTransaction "gas station" = (TRANSACTION_CATEGORIES.get ⟨1, by decide⟩).1 :=
  (categorizeTransaction_first_match_spec "gas station").2.2.2 ⟨1, by decide⟩
    (by decide) (by decide)

/-! ### C2: the reference time is the ambient clock, not a parameter -/

theorem foldl_add_map {α : Type} (f : α → ℚ) (l : List α) (a : ℚ) :
    l.foldl (fun s t => s + f t) a = a + (l.map f).sum := by
  induction l generalizing a with
  | nil => simp
  | cons x xs ih => simp [ih, add_assoc]

/-- Counterexample to C2: the metrics computation reads the clock
(`new Date()`) inside the function, so a fixed transaction list evaluated
at two different run times gives different results — an income of 300
dated 2025-06-01 is inside the 3-month window on 2025-07-01 and outside it
on 2026-07-01. -/
theorem metrics_ambient_clock_counterexample :
    calculateFinancialMetrics
        [{ amount := 300, description := "salary", transaction_type := TType.income,
           transaction_date := ⟨2025, 5, 1⟩ }] 0 ⟨2025, 6, 1⟩ ≠
      calculateFinancialMetrics
        [{ amount := 300, description := "salary", transaction_type := TType.income,
           transaction_date := ⟨2025, 5, 1⟩ }] 0 ⟨2026, 6, 1⟩ := by
  have hd1 : dateLe (monthsAgo 3 ⟨2025, 6, 1⟩) ⟨2025, 5, 1⟩ = true := by decide
  have hd2 : dateLe (monthsAgo 3 ⟨2026, 6, 1⟩) ⟨2025, 5, 1⟩ = false := by decide
  intro hcontra
  have h := congrArg FinancialMetrics.totalIncome hcontra
  simp only [calculateFinancialMetrics, List.filter, hd1, hd2] at h
  norm_num at h

/-- C2 as amended: the reference time is read from the ambient clock at
call time, not injected; modelling that clock read as an input `now`, both
computations are deterministic functions of their inputs and the clock
reading — they depend on `now` only through the derived window cutoffs, so
two evaluations with the same transactions and the same cutoffs agree. -/
theorem metrics_spending_determined_by_cutoffs (transactions : List Transaction) (e : ℚ)
    (now₁ now₂ : DateT) (h3 : monthsAgo 3 now₁ = monthsAgo 3 now₂)
    (h1 : monthsAgo 1 now₁ = monthsAgo 1 now₂) :
    calculateFinancialMetrics transactions e now₁ =
        calculateFinancialMetrics transactions e now₂ ∧
      analyzeSpendingByCategory transactions now₁ =
        analyzeSpendingByCategory transactions now₂ :=
  ⟨by simp only [calculateFinancialMetrics, h3],
   by simp only [analyzeSpendingByCategory, h1]⟩

/-- Witness for the amended C2 at a concrete clock reading. -/
theorem metrics_spending_determined_by_cutoffs_witness :
    calculateFinancialMetrics [] 0 ⟨2025, 6, 1⟩ = calculateFinancialMetrics [] 0 ⟨2025, 6, 1⟩ ∧
      analyzeSpendingByCategory [] ⟨2025, 6, 1⟩ = analyzeSpendingByCategory [] ⟨2025, 6, 1⟩ :=
  metrics_spending_determined_by_cutoffs [] 0 ⟨2025, 6, 1⟩ ⟨2025, 6, 1⟩ rfl rfl

/-! ### C3: the inherited debt-to-income double division by 3 -/

/-- C3: for every transaction list, the reported debt-to-income ratio is
`(debtPayments / 3) / monthlyIncome × 100` when `monthlyIncome =
totalIncome / 3` is positive and 0 otherwise, with `debtPayments` the sum
of absolute amounts of in-window expense transactions categorized "Debt" —
the double division by 3 is preserved. -/
theorem debtToIncomeRatio_double_division (transactions : List Transaction) (e : ℚ)
    (now : DateT) :
    (calculateFinancialMetrics transactions e now).debtToIncomeRatio =
      if 0 < (((transactions.filter
              (fun t => dateLe (monthsAgo 3 now) t.transaction_date)).filter
              (fun t => t.transaction_type == TType.income)).map (fun t => |t.amount|)).sum / 3
      then ((((transactions.filter
              (fun t => dateLe (monthsAgo 3 now) t.transaction_date)).filter
              (fun t => (categorizeTransaction t.description == "Debt") &&
                (t.transaction_type == TType.expense))).map (fun t => |t.amount|)).sum / 3) /
          ((((transactions.filter
              (fun t => dateLe (monthsAgo 3 now) t.transaction_date)).filter
              (fun t => t.transaction_type == TType.income)).map (fun t => |t.amount|)).sum / 3) *
          100
      else 0 := by
  simp only [calculateFinancialMetrics, foldl_add_map, zero_add, List.filter_filter,
    Bool.and_assoc]

/-! ### C4: per-category percentages sum to 100 -/

theorem addToCategory_amount_sum (m : List (String × CategorySpend)) (c : String) (a : ℚ) :
    ((addToCategory m c a).map (fun p => p.2.amount)).sum =
      (m.map (fun p => p.2.amount)).sum + a := by
  induction m with
  | nil => simp [addToCategory]
  | cons hd tl ih =>
    obtain ⟨hc, hs⟩ := hd
    by_cases h : hc = c
    · simp only [addToCategory, if_pos h, List.map_cons, List.sum_cons]
      ring
    · simp only [addToCategory, if_neg h, List.map_cons, List.sum_cons, ih]
      ring

theorem foldl_addToCategory_amount_sum (l : List Transaction)
    (m : List (String × CategorySpend)) :
    ((l.foldl (fun m t => addToCategory m (categorizeTransaction t.description) |t.amount|)
        m).map (fun p => p.2.amount)).sum =
      (m.map (fun p => p.2.amount)).sum + (l.map (fun t => |t.amount|)).sum := by
  induction l generalizing m with
  | nil => simp
  | cons t ts ih =>
    simp only [List.foldl_cons, List.map_cons, List.sum_cons, ih, addToCategory_amount_sum]
    ring

theorem sum_map_mul_const {α : Type} (l : List α) (f : α → ℚ) (c : ℚ) :
    (l.map (fun x => f x * c)).sum = (l.map f).sum * c := by
  induction l with
  | nil => simp
  | cons x xs ih => simp [ih, add_mul]

/-- C4: in the spending-by-category mapping, the percentages of the
present categories sum exactly to 100 whenever the total in-window expense
amount is positive, and every percentage is 0 when the total is 0. -/
theorem spendingByCategory_percentage_sum (transactions : List Transaction) (now : DateT) :
    ((0 : ℚ) < ((transactions.filter (fun t => t.transaction_type == TType.expense &&
            dateLe (monthsAgo 1 now) t.transaction_date)).map (fun t => |t.amount|)).sum →
        ((analyzeSpendingByCategory transactions now).map (fun p => p.2.percentage)).sum =
          100) ∧
      (((transactions.filter (fun t => t.transaction_type == TType.expense &&
            dateLe (monthsAgo 1 now) t.transaction_date)).map (fun t => |t.amount|)).sum = 0 →
        ∀ p ∈ analyzeSpendingByCategory transactions now, p.2.percentage = 0) := by
  constructor
  · intro h
    simp only [analyzeSpendingByCategory, foldl_add_map, zero_add, List.map_map]
    have hcomp :
        ((fun p : String × CategorySpend => p.2.percentage) ∘ fun p =>
            (p.1, { p.2 with
                    percentage :=
                      if 0 <
                          ((transactions.filter
                              (fun t => t.transaction_type == TType.expense &&
                                dateLe (monthsAgo 1 now) t.transaction_date)).map
                            (fun t => |t.amount|)).sum then
                        p.2.amount /
                            ((transactions.filter
                                (fun t => t.transaction_type == TType.expense &&
                                  dateLe (monthsAgo 1 now) t.transaction_date)).map
                              (fun t => |t.amount|)).sum *
                          100
                      else 0 })) =
          fun p : String × CategorySpend =>
            p.2.amount *
              (100 /
                ((transactions.filter
                    (fun t => t.transaction_type == TType.expense &&
                      dateLe (monthsAgo 1 now) t.transaction_date)).map
                  (fun t => |t.amount|)).sum) := by
      funext p
      simp only [Function.comp, if_pos h]
      ring
    rw [hcomp, sum_map_mul_const, foldl_addToCategory_amount_sum]
    have hne :
        ((transactions.filter (fun t => t.transaction_type == TType.expense &&
            dateLe (monthsAgo 1 now) t.transaction_date)).map (fun t => |t.amount|)).sum ≠ 0 :=
      ne_of_gt h
    field_simp
  · intro h0 p hp
    simp only [analyzeSpendingByCategory, foldl_add_map, zero_add, List.mem_map, h0] at hp
    obtain ⟨q, hq, rfl⟩ := hp
    norm_num

/-- Witness for C4: a single in-window expense of 1500 ("rent payment")
makes the total positive and the percentage sum equal 100. -/
theorem spendingByCategory_percentage_sum_witness :
    ((analyzeSpendingByCategory
          [{ amount := -1500, description := "rent payment",
             transaction_type := TType.expense,
             transaction_date := ⟨2025, 5, 21⟩ }] ⟨2025, 6, 1⟩).map
        (fun p => p.2.percentage)).sum = 100 :=
  (spendingByCategory_percentage_sum _ _).1 (by
    have hd : dateLe (monthsAgo 1 ⟨2025, 6, 1⟩) ⟨2025, 5, 21⟩ = true := by decide
    simp [hd])

/-! ### C5: insight ordering -/

theorem insertInsight_perm (x : FinancialInsight) (l : List FinancialInsight) :
    List.Perm (insertInsight x l) (x :: l) := by
  induction l with
  | nil => simp [insertInsight]
  | cons y ys ih =>
    simp only [insertInsight]
    split
    · exact List.Perm.refl _
    · exact (List.Perm.cons y ih).trans (List.Perm.swap x y ys)

theorem sortInsights_perm (l : List FinancialInsight) : List.Perm (sortInsights l) l := by
  induction l with
  | nil => simp [sortInsights]
  | cons x xs ih =>
    simp only [sortInsights, List.foldr_cons] at *
    exact (insertInsight_perm x _).trans (List.Perm.cons x ih)

theorem insertInsight_sorted (x : FinancialInsight) (l : List FinancialInsight)
    (hl : l.Pairwise (fun a b => priorityWeight b.priority ≤ priorityWeight a.priority)) :
    (insertInsight x l).Pairwise
      (fun a b => priorityWeight b.priority ≤ priorityWeight a.priority) := by
  induction l with
  | nil => simp [insertInsight]
  | cons y ys ih =>
    rcases List.pairwise_cons.1 hl with ⟨hy, hys⟩
    simp only [insertInsight]
    split
    case isTrue h =>
      refine List.pairwise_cons.2 ⟨?_, hl⟩
      intro z hz
      rcases List.mem_cons.1 hz with rfl | hz2
      · exact h
      · exact le_trans (hy z hz2) h
    case isFalse h =>
      refine List.pairwise_cons.2 ⟨?_, ih hys⟩
      intro z hz
      rcases List.mem_cons.1 ((insertInsight_perm x ys).mem_iff.1 hz) with rfl | hz3
      · exact le_of_lt (Nat.lt_of_not_le h)
      · exact hy z hz3

theorem sortInsights_sorted (l : List FinancialInsight) :
    (sortInsights l).Pairwise
      (fun a b => priorityWeight b.priority ≤ priorityWeight a.priority) := by
  induction l with
  | nil => simp [sortInsights]
  | cons x xs ih =>
    simp only [sortInsights, List.foldr_cons] at *
    exact insertInsight_sorted x _ ih

theorem filter_insertInsight (x : FinancialInsight) (l : List FinancialInsight) (w : Nat) :
    (insertInsight x l).filter (fun i => priorityWeight i.priority == w) =
      if priorityWeight x.priority == w then
        x :: l.filter (fun i => priorityWeight i.priority == w)
      else l.filter (fun i => priorityWeight i.priority == w) := by
  induction l with
  | nil =>
    by_cases hx : priorityWeight x.priority == w
    all_goals simp [insertInsight, List.filter_cons, hx]
  | cons y ys ih =>
    simp only [insertInsight]
    split
    case isTrue h =>
      by_cases hx : priorityWeight x.priority == w
      all_goals simp [List.filter_cons, hx]
    case isFalse h =>
      have hlt : priorityWeight x.priority < priorityWeight y.priority :=
        Nat.lt_of_not_le h
      simp only [List.filter_cons, ih]
      by_cases hx : priorityWeight x.priority == w
      · have hx2 : priorityWeight x.priority = w := by simpa using hx
        have hy : (priorityWeight y.priority == w) = false := by
          rw [beq_eq_false_iff_ne]
          omega
        simp [hx, hy]
      · simp [hx]

theorem filter_sortInsights (l : List FinancialInsight) (w : Nat) :
    (sortInsights l).filter (fun i => priorityWeight i.priority == w) =
      l.filter (fun i => priorityWeight i.priority == w) := by
  induction l with
  | nil => rfl
  | cons x xs ih =>
    simp only [sortInsights, List.foldr_cons] at *
    rw [filter_insertInsight]
    by_cases hx : priorityWeight x.priority == w
    · simp [List.filter_cons, hx, ih]
    · simp [List.filter_cons, hx, ih]

/-- C5: the generated insight list is the stable sort by descending
priority weight (high 3, medium 2, low 1) of the insights appended in
rule-evaluation order: it is a permutation of the appended list, adjacent
elements have non-increasing weight, and for every weight the subsequence
of that weight is exactly the one appended by the rules in order (equal
weights keep evaluation order). -/
theorem generateInsights_sorted_stable (metrics : FinancialMetrics)
    (sp : List (String × CategorySpend)) (profile : UserProfile) :
    List.Perm (generateFinancialInsights metrics sp profile) (rawInsights metrics sp) ∧
      (generateFinancialInsights metrics sp profile).Pairwise
        (fun a b => priorityWeight b.priority ≤ priorityWeight a.priority) ∧
      ∀ w : Nat,
        (generateFinancialInsights metrics sp profile).filter
            (fun i => priorityWeight i.priority == w) =
          (rawInsights metrics sp).filter (fun i => priorityWeight i.priority == w) :=
  ⟨sortInsights_perm _, sortInsights_sorted _, fun w => filter_sortInsights _ w⟩

/-! ### C6: the goal-projection loop is capped at 600 iterations -/

theorem projectLoop_invariant (mr mc t : ℚ) :
    ∀ (fuel : Nat) (a : ℚ) (months : Nat), maxMonths ≤ months + fuel →
      months ≤ (projectLoop mr mc t a months fuel).2 ∧
        (projectLoop mr mc t a months fuel).2 ≤ max months maxMonths ∧
        (projectLoop mr mc t a months fuel).1 =
          (fun x => x * (1 + mr) + mc)^[(projectLoop mr mc t a months fuel).2 - months] a ∧
        (∀ i, i < (projectLoop mr mc t a months fuel).2 - months →
          (fun x => x * (1 + mr) + mc)^[i] a < t) ∧
        ((projectLoop mr mc t a months fuel).2 < maxMonths →
          t ≤ (projectLoop mr mc t a months fuel).1) := by
  intro fuel
  induction fuel with
  | zero =>
    intro a months h
    simp only [projectLoop]
    refine ⟨le_refl _, le_max_left _ _, by simp, ?_, ?_⟩
    · intro i hi
      omega
    · intro hlt
      exact absurd hlt (by simp only [Nat.add_zero] at h; omega)
  | succ fuel ih =>
    intro a months h
    by_cases hc : a < t ∧ months < maxMonths
    · simp only [projectLoop, if_pos hc]
      obtain ⟨i1, i2, i3, i4, i5⟩ :=
        ih (a * (1 + mr) + mc) (months + 1) (by omega)
      refine ⟨by omega, ?_, ?_, ?_, i5⟩
      · have hm1 : max (months + 1) maxMonths = maxMonths := Nat.max_eq_right (by omega)
        have hm2 : max months maxMonths = maxMonths := Nat.max_eq_right (by omega)
        rw [hm1] at i2
        rw [hm2]
        exact i2
      · rw [i3]
        have hk : (projectLoop mr mc t (a * (1 + mr) + mc) (months + 1) fuel).2 - months =
            ((projectLoop mr mc t (a * (1 + mr) + mc) (months + 1) fuel).2 - (months + 1)) + 1 :=
          by omega
        rw [hk, Function.iterate_succ_apply]
      · intro i hi
        cases i with
        | zero => simpa using hc.1
        | succ j =>
          have hj : j < (projectLoop mr mc t (a * (1 + mr) + mc) (months + 1) fuel).2 -
              (months + 1) := by omega
          have hstep := i4 j hj
          rw [Function.iterate_succ_apply]
          exact hstep
    · simp only [projectLoop, if_neg hc]
      push_neg at hc
      refine ⟨le_refl _, le_max_left _ _, by simp, ?_, ?_⟩
      · intro i hi
        omega
      · intro hlt
        exact le_of_not_lt (fun hat => absurd (hc hat) (by omega))

theorem projectLoop_fuel_irrelevant (mr mc t : ℚ) :
    ∀ (fuel₁ fuel₂ : Nat) (a : ℚ) (months : Nat), maxMonths ≤ months + fuel₁ →
      maxMonths ≤ months + fuel₂ →
      projectLoop mr mc t a months fuel₁ = projectLoop mr mc t a months fuel₂ := by
  intro fuel₁
  induction fuel₁ with
  | zero =>
    intro fuel₂ a months h1 h2
    cases fuel₂ with
    | zero => rfl
    | succ f2 =>
      have hnc : ¬(a < t ∧ months < maxMonths) := by
        rintro ⟨-, hm⟩
        simp only [Nat.add_zero] at h1
        omega
      simp only [projectLoop, if_neg hnc]
  | succ f ih =>
    intro fuel₂ a months h1 h2
    by_cases hc : a < t ∧ months < maxMonths
    · cases fuel₂ with
      | zero =>
        exact absurd h2 (by simp only [Nat.add_zero]; omega)
      | succ f2 =>
        simp only [projectLoop, if_pos hc]
        exact ih f2 _ (months + 1) (by omega) (by omega)
    · cases fuel₂ with
      | zero => simp only [projectLoop, if_neg hc]
      | succ f2 => simp only [projectLoop, if_neg hc]

/-- C6: for every input, the month-by-month goal simulation stops after at
most 600 iterations — giving the loop any fuel beyond the 50-year cap
changes nothing and the exit month count is at most 600 (`yearsToTarget ×
12 ≤ 600`) — and `onTrack` is true exactly when some iterate of the
compounding step reaches the target before the cap. -/
theorem projectGoal_cap_onTrack (c m r t : ℚ) :
    (∀ extra : Nat,
        projectLoop (r / 12) m t c 0 (maxMonths + extra) =
          projectLoop (r / 12) m t c 0 maxMonths) ∧
      (projectInvestmentGoal c m r t).yearsToTarget * 12 ≤ (maxMonths : ℚ) ∧
      ((projectInvestmentGoal c m r t).onTrack = true ↔
        ∃ k, k < maxMonths ∧ t ≤ (fun x => x * (1 + r / 12) + m)^[k] c) := by
  obtain ⟨i1, i2, i3, i4, i5⟩ := projectLoop_invariant (r / 12) m t maxMonths c 0 (by omega)
  have hle : (projectLoop (r / 12) m t c 0 maxMonths).2 ≤ maxMonths := by
    simpa using i2
  refine ⟨?_, ?_, ?_⟩
  · intro extra
    exact projectLoop_fuel_irrelevant (r / 12) m t (maxMonths + extra) maxMonths c 0
      (by omega) (by omega)
  · simp only [projectInvestmentGoal]
    rw [div_mul_cancel₀ _ (by norm_num : (12 : ℚ) ≠ 0)]
    exact_mod_cast hle
  · constructor
    · intro hot
      have hlt : (projectLoop (r / 12) m t c 0 maxMonths).2 < maxMonths := by
        simpa [projectInvestmentGoal] using hot
      refine ⟨(projectLoop (r / 12) m t c 0 maxMonths).2, hlt, ?_⟩
      have ht := i5 hlt
      rw [i3] at ht
      simpa using ht
    · rintro ⟨k, hk, hkt⟩
      simp only [projectInvestmentGoal, decide_eq_true_eq]
      by_contra hge
      push_neg at hge
      have h600 : (projectLoop (r / 12) m t c 0 maxMonths).2 = maxMonths := by omega
      have hik := i4 k (by omega)
      exact absurd hkt (not_le_of_lt hik)

/-- C7: with zero expected return, `calculateMonthlyContributionNeeded(0,
12000, 1, 0)` degenerates the annuity denominator and falls back to linear
division of the gap by the total months: 12000 / 12 = 1000 exactly. -/
theorem monthlyContributionNeeded_zero_return :
    calculateMonthlyContributionNeeded 0 12000 1 0 = 1000 := by
  norm_num [calculateMonthlyContributionNeeded]

/-! ### C10: unclamped age-based allocation -/

/-- C10: for every age strictly below 20 with "aggressive" risk tolerance,
the age-based allocation returns stocks = 120 − age (exceeding 100) and
bonds = age − 20 (negative): the components are not clamped to a valid
percentage range. -/
theorem ageBasedAllocation_young_aggressive (age : ℚ) (h : age < 20) :
    (calculateAgeBasedAllocation age "aggressive").stocks = 120 - age ∧
    100 < (calculateAgeBasedAllocation age "aggressive").stocks ∧
    (calculateAgeBasedAllocation age "aggressive").bonds = age - 20 ∧
    (calculateAgeBasedAllocation age "aggressive").bonds < 0 := by
  simp only [calculateAgeBasedAllocation]
  rw [if_neg (by decide : ¬ ("aggressive" : String) = "conservative"),
    if_neg (by decide : ¬ ("aggressive" : String) = "moderate")]
  simp only [if_true]
  have hs : max (120 - age) (40 : ℚ) = 120 - age := max_eq_left (by linarith)
  rw [hs]
  have hb : min (100 - (120 - age)) (60 : ℚ) = 100 - (120 - age) :=
    min_eq_left (by linarith)
  rw [hb]
  refine ⟨rfl, by linarith, by ring, by linarith⟩

/-! ### C8: the allocation blend of two equal allocations -/

theorem div_total_sum (s b re co ca : ℚ) (hpos : 0 < s + b + re + co + ca) :
    s / (s + b + re + co + ca) * 100 + b / (s + b + re + co + ca) * 100 +
        re / (s + b + re + co + ca) * 100 + co / (s + b + re + co + ca) * 100 +
        ca / (s + b + re + co + ca) * 100 = 100 := by
  have hne : s + b + re + co + ca ≠ 0 := ne_of_gt hpos
  field_simp
  ring

theorem total_pos (u v re co ca : ℚ) (hre : 0 < re) (hco : 0 < co) (hca : 0 < ca) :
    0 < max u 10 + max v 5 + re + co + ca := by
  have h1 : (10 : ℚ) ≤ max u 10 := le_max_right _ _
  have h2 : (5 : ℚ) ≤ max v 5 := le_max_right _ _
  linarith

/-- The goal-based allocation always normalizes to a componentwise sum of
exactly 100. -/
theorem allocSum_goalBased (th : ℚ) (rt : RiskTolerance) (g : String) :
    allocSum (calculateGoalBasedAllocation th rt g) = 100 := by
  simp only [calculateGoalBasedAllocation, allocSum]
  by_cases h1 : th < 3
  · simp only [if_pos h1]
    exact div_total_sum _ _ _ _ _ (total_pos _ _ _ _ _ (by norm_num) (by norm_num) (by norm_num))
  · by_cases h2 : th < 10
    · simp only [if_neg h1, if_pos h2]
      exact div_total_sum _ _ _ _ _
        (total_pos _ _ _ _ _ (by norm_num) (by norm_num) (by norm_num))
    · simp only [if_neg h1, if_neg h2]
      exact div_total_sum _ _ _ _ _
        (total_pos _ _ _ _ _ (by norm_num) (by norm_num) (by norm_num))

theorem ageBased_sum_ge (s : ℚ) (h20 : 20 ≤ s) :
    103 ≤ s + min (100 - s) 60 + min ((100 - s - min (100 - s) 60) * 0.6) 15 +
        min ((100 - s - min (100 - s) 60) * 0.3) 10 +
        max ((100 - s - min (100 - s) 60) * 0.1) 5 := by
  by_cases hb : 100 - s ≤ 60
  · rw [min_eq_left hb]
    have hr : (100 - s - (100 - s)) = 0 := by ring
    rw [hr]
    rw [show (0 : ℚ) * 0.6 = 0 by ring, show (0 : ℚ) * 0.3 = 0 by ring,
      show (0 : ℚ) * 0.1 = 0 by ring, min_eq_left (by norm_num : (0 : ℚ) ≤ 15),
      min_eq_left (by norm_num : (0 : ℚ) ≤ 10), max_eq_right (by norm_num : (0 : ℚ) ≤ 5)]
    linarith
  · push_neg at hb
    rw [min_eq_right (le_of_lt hb)]
    have h40 : s < 40 := by linarith
    rw [min_eq_left (by linarith : (100 - s - 60) * 0.6 ≤ 15),
      min_eq_left (by linarith : (100 - s - 60) * 0.3 ≤ 10),
      max_eq_right (by linarith : (100 - s - 60) * 0.1 ≤ 5)]
    linarith

/-- The age-based allocation's componentwise sum is always at least 103 —
in particular never 100 — so no profile makes it coincide with the
goal-based allocation. -/
theorem allocSum_ageBased_ge (age : ℚ) (rt : String) :
    103 ≤ allocSum (calculateAgeBasedAllocation age rt) := by
  simp only [calculateAgeBasedAllocation, allocSum]
  apply ageBased_sum_ge
  split_ifs <;> exact le_trans (by norm_num) (le_max_right _ _)

/-- C8: the blended allocation of `generateInvestmentRecommendation` is
the componentwise 0.6/0.4 blend of the goal-based and age-based
allocations rounded to the nearest integer, and blending two equal
allocations yields the common allocation componentwise rounded (since
0.6·x + 0.4·x = x).  Moreover the claim's hypothesis is vacuous on the
code: the age-based and goal-based allocations are never identical, the
former summing to ≥ 103 while the latter always sums to exactly 100. -/
theorem recommend_blend_identity (p : InvestmentProfile) (x : AssetAllocation) :
    (generateInvestmentRecommendation p).allocation =
        blendAllocation
          (calculateGoalBasedAllocation p.timeHorizon p.riskTolerance
            (headOrGeneral p.investmentGoals))
          (calculateAgeBasedAllocation p.currentAge (riskToleranceStr p.riskTolerance)) ∧
      blendAllocation x x =
        { stocks := roundQ x.stocks, bonds := roundQ x.bonds,
          realEstate := roundQ x.realEstate, commodities := roundQ x.commodities,
          cash := roundQ x.cash } ∧
      calculateAgeBasedAllocation p.currentAge (riskToleranceStr p.riskTolerance) ≠
        calculateGoalBasedAllocation p.timeHorizon p.riskTolerance
          (headOrGeneral p.investmentGoals) := by
  refine ⟨rfl, ?_, ?_⟩
  · have h : ∀ q : ℚ, q * 0.6 + q * 0.4 = q := fun q => by ring
    simp [blendAllocation, h]
  · intro heq
    have h1 := allocSum_ageBased_ge p.currentAge (riskToleranceStr p.riskTolerance)
    have h2 := allocSum_goalBased p.timeHorizon p.riskTolerance (headOrGeneral p.investmentGoals)
    rw [heq, h2] at h1
    norm_num at h1

/-! ### C9: the synthetic one-percent day change -/

theorem foldl_portfolio_dayChange (l : List Holding) :
    ∀ v c d : ℚ, d = 0.01 * v →
      (l.foldl (fun (acc : ℚ × ℚ × ℚ) inv =>
          (acc.1 + inv.shares * inv.current_price,
            acc.2.1 + inv.shares * inv.purchase_price,
            acc.2.2 + inv.shares * (inv.current_price - inv.current_price * 0.99)))
        (v, c, d)).2.2 =
      0.01 *
        (l.foldl (fun (acc : ℚ × ℚ × ℚ) inv =>
            (acc.1 + inv.shares * inv.current_price,
              acc.2.1 + inv.shares * inv.purchase_price,
              acc.2.2 + inv.shares * (inv.current_price - inv.current_price * 0.99)))
          (v, c, d)).1 := by
  induction l with
  | nil =>
    intro v c d h
    simpa using h
  | cons y ys ih =>
    intro v c d h
    simp only [List.foldl_cons]
    exact ih _ _ _ (by rw [h]; ring)

/-- C9: for every holdings list the reported day change is exactly 1% of
the total value (the previous-day price is synthesized as `current_price *
0.99` for every holding), so the day-change percentage is exactly 1
whenever the total value is positive and 0 when it is 0. -/
theorem dayChange_is_one_percent (investments : List Holding) :
    (calculatePortfolioPerformance investments).dayChange =
        0.01 * (calculatePortfolioPerformance investments).totalValue ∧
      (0 < (calculatePortfolioPerformance investments).totalValue →
        (calculatePortfolioPerformance investments).dayChangePercentage = 1) ∧
      ((calculatePortfolioPerformance investments).totalValue = 0 →
        (calculatePortfolioPerformance investments).dayChangePercentage = 0) := by
  have hd := foldl_portfolio_dayChange investments 0 0 0 (by norm_num)
  refine ⟨?_, ?_, ?_⟩
  · simpa only [calculatePortfolioPerformance] using hd
  · intro hpos
    simp only [calculatePortfolioPerformance] at hpos ⊢
    rw [if_pos hpos, hd, mul_div_assoc, div_self (ne_of_gt hpos)]
    norm_num
  · intro h0
    simp only [calculatePortfolioPerformance] at h0 ⊢
    rw [if_neg (by rw [h0]; exact lt_irrefl 0)]

/-- Witness for C9: one holding of 2 shares at price 150 has total value
300 > 0 and day-change percentage exactly 1. -/
theorem dayChange_is_one_percent_witness :
    (calculatePortfolioPerformance
        [{ symbol := "VTI", shares := 2, purchase_price := 100,
           current_price := 150 }]).dayChangePercentage = 1 :=
  (dayChange_is_one_percent _).2.1 (by norm_num [calculatePortfolioPerformance])

/-- Witness for C10 at age 18: stocks 102 > 100 and bonds −2 < 0. -/
theorem ageBasedAllocation_young_aggressive_witness :
    100 < (calculateAgeBasedAllocation 18 "aggressive").stocks ∧
    (calculateAgeBasedAllocation 18 "aggressive").bonds < 0 :=
  ⟨(ageBasedAllocation_young_aggressive 18 (by norm_num)).2.1,
   (ageBasedAllocation_young_aggressive 18 (by norm_num)).2.2.2⟩

end FinanceCore
